import Mathlib

/-!
Verification of the crabJS/speedJS rendering engine against its specification.

Shallow embedding of the vdom core: the tree-node model (`src/speedJS/vdom/VNode.ts`,
materialised here as `VN` and `createElement`), the reconciler
(`src/speedJS/vdom/reconciler.ts`: `createDOMElement`, `updateDOMElement`,
`updateProps`, `updateChildren`), the update scheduler
(`src/speedJS/vdom/BatchUpdate.ts`), the hooks runtime (`src/speedJS/vdom/hooks.ts`),
the context channel (`src/speedJS/vdom/Context.ts`) and the error boundary
(`src/speedJS/vdom/ErrorBoundary.ts`).

Modelling conventions:
- JavaScript strict-equality values (`===` / `!==`) are modelled by `JVal`
  (strings, integers, and function references carried as numeric identity
  tokens); object identity is folded into the value.
- The mutable DOM is a pure tree `DNode`; every created node receives a fresh
  numeric id from a counter threaded through the reconciler state, so node
  identity across a patch is observable as id preservation.
- Thrown JS exceptions are `Except String`; the reconciler singleton state
  (its `currentErrorBoundary` pointer, the event-delegator table, the id
  counter) is threaded explicitly and is returned also on the error path,
  matching mutation of a process-wide singleton surviving a throw.
- Recursion through rendered subtrees is bounded by an explicit fuel
  parameter; fuel exhaustion returns an error that is never reached at the
  concrete inputs used below.
-/

/-- A JavaScript value as compared by strict equality: a string, a number
(integers only; the engine compares keys, state values and dependency lists
with this relation), or a function value identified by a reference token. -/
inductive JVal where
  | str (s : String)
  | num (n : Int)
  | fn (ref : Nat)
deriving DecidableEq, Repr

/-- JavaScript truthiness of a `JVal` (`0` and the empty string are falsy;
functions are truthy).  Used by `createElement` for `key: key || undefined`. -/
def jvTruthy : JVal → Bool
  | .str s => s ≠ ""
  | .num n => n ≠ 0
  | .fn _ => true

/-- `String(value)` coercion as used by `element.setAttribute(name, String(value))`. -/
def jvToString : JVal → String
  | .str s => s
  | .num n => toString n
  | .fn _ => "function"

/-- The tree-node model.  `text` is a plain string child
(`children: Array<VNode | string>`); `elem` is an element description
(`type: string`, `props`, optional `key`, `children`); `comp` is a
class-component invocation whose instantiation-plus-`render()` outcome is the
carried `Except` (a component render either returns a tree or throws);
`boundary` is an `ErrorBoundary` subclass carrying its abstract
`fallbackRender` function and its `props.children`. -/
inductive VN where
  | text (s : String)
  | elem (ty : String) (props : List (String × JVal)) (keyOpt : Option JVal)
      (children : List VN)
  | comp (name : String) (renderRes : Except String VN)
  | boundary (name : String) (fallback : String → VN) (child : VN)

/-- The `key` field of a node description (`undefined` is `none`). -/
def vnKey : VN → Option JVal
  | .elem _ _ k _ => k
  | _ => none

/-- The guard `typeof child !== 'string' && child.key != null` used by
`updateChildren` to decide keyed versus positional matching. -/
def vnodeKeyed : VN → Bool
  | .text _ => false
  | v => (vnKey v).isSome

/-- `typeof child !== 'string'` (a description that is an object, not a text). -/
def vnIsObject : VN → Bool
  | .text _ => false
  | _ => true

/-- JS truthiness of a child entry: vnode objects are truthy, a text child is
truthy iff the string is nonempty (`if (oldChild)` in `updateChildren`). -/
def vnTruthy : VN → Bool
  | .text s => s ≠ ""
  | _ => true

/-- The dispatch tag of `vnode.type` as compared by
`oldVNode.type !== newVNode.type`: an element tag string or a component
class/function value (identified here by name). -/
inductive NType where
  | txt
  | el (ty : String)
  | cmp (name : String)
  | bnd (name : String)
deriving DecidableEq, Repr

/-- `vnode.type` projection for the `patch` dispatch. -/
def vnType : VN → NType
  | .text _ => .txt
  | .elem ty _ _ _ => .el ty
  | .comp name _ => .cmp name
  | .boundary name _ _ => .bnd name

/-- `props` of a description (component invocations carry their props in the
source; the claims below never patch a component node, so they are collapsed
to the empty record here). -/
def vnProps : VN → List (String × JVal)
  | .elem _ p _ _ => p
  | _ => []

/-- `children` of a description used by the child diff. -/
def vnChildren : VN → List VN
  | .elem _ _ _ cs => cs
  | _ => []

/-- First-match lookup in a JS object modelled as an association list
(object keys are unique, so first match is the value). -/
def lookupProp (props : List (String × JVal)) (name : String) : Option JVal :=
  (props.find? (fun p => p.1 == name)).map (·.2)

/-- One argument slot of `createElement(type, props, ...children)`: either a
single entry (`none` models `null`/`undefined`) or a nested array of entries,
flattened by `children.flat()`. -/
inductive CEChild where
  | one : Option VN → CEChild
  | arr : List (Option VN) → CEChild

/-- `children.flat().filter(child => child !== null && child !== undefined)`. -/
def flattenCE (args : List CEChild) : List VN :=
  ((args.map (fun a => match a with
      | .one o => [o]
      | .arr l => l)).flatten).filterMap id

/-- `createElement` from `src/speedJS/vdom/VNode.ts`: destructures the
reserved `key` out of `props` (`const { key, ...restProps } = props || {}`),
flattens and null-filters the children, and stores
`key: key || undefined` — a falsy key is discarded.  Element kinds only; the
claims below never build component descriptions through it. -/
def createElement (ty : String) (props : Option (List (String × JVal)))
    (children : List CEChild) : VN :=
  let p := props.getD []
  let keyv := lookupProp p "key"
  let rest := p.filter (fun q => q.1 ≠ "key")
  VN.elem ty rest
    (match keyv with
     | some k => if jvTruthy k then some k else none
     | none => none)
    (flattenCE children)

/-- A live display node: a text node or an element with its attribute map,
its raw `addEventListener` registrations made at creation time, and its child
nodes.  The numeric `id` is the node identity (the "same node instance"
relation of the spec). -/
inductive DNode where
  | dtext (id : Nat) (s : String)
  | delem (id : Nat) (ty : String) (attrs : List (String × String))
      (listeners : List (String × JVal)) (children : List DNode)

/-- Identity of a live node. -/
def dnId : DNode → Nat
  | .dtext i _ => i
  | .delem i _ _ _ _ => i

/-- Child identities of a live element, in display order. -/
def dnChildIds : DNode → List Nat
  | .dtext _ _ => []
  | .delem _ _ _ _ cs => cs.map dnId

/-- An `ErrorBoundary` component instance as held by the reconciler pointer:
its fallback renderer and its `{ hasError, error }` state. -/
structure BInst where
  bname : String
  fallback : String → VN
  hasError : Bool
  errVal : Option String

/-- The process-wide reconciler singleton state: the mutable
`currentErrorBoundary` pointer, the record of `componentDidCatch` invocations
(the hook is declared in `ErrorBoundary` but no call site exists anywhere in
the source, so nothing in the embedding ever appends to this log), the
event-delegator table `(eventType, element) -> handler` written by
`updateProps`, and the fresh-id counter for created display nodes. -/
structure RState where
  ptr : Option BInst
  didCatchLog : List (String × String)
  delegated : List ((String × Nat) × JVal)
  ctr : Nat

/-- `setAttribute`: overwrite the attribute if present, else append it. -/
def setAttr (attrs : List (String × String)) (name val : String) :
    List (String × String) :=
  if attrs.any (fun p => p.1 == name) then
    attrs.map (fun p => if p.1 == name then (p.1, val) else p)
  else attrs ++ [(name, val)]

/-- `removeAttribute`. -/
def removeAttr (attrs : List (String × String)) (name : String) :
    List (String × String) :=
  attrs.filter (fun p => p.1 ≠ name)

/-- `EventDelegator.addEventListener`: one handler per (event type, element),
overwritten on re-registration. -/
def delegSet (st : RState) (ev : String) (node : Nat) (h : JVal) : RState :=
  if st.delegated.any (fun e => e.1 == (ev, node)) then
    { st with delegated :=
        st.delegated.map (fun e => if e.1 == (ev, node) then (e.1, h) else e) }
  else { st with delegated := st.delegated ++ [((ev, node), h)] }

/-- `EventDelegator.removeEventListener`: drop the handler for this
(event type, element) pair. -/
def delegRemove (st : RState) (ev : String) (node : Nat) : RState :=
  { st with delegated := st.delegated.filter (fun e => e.1 ≠ (ev, node)) }

/-- `name.toLowerCase().substring(2)`: the event name of an `on*` prop. -/
def evName (name : String) : String :=
  (name.toLower).drop 2

/-- The prop loop of `createDOMElement`: `className` becomes the `class`
attribute; an `on*` prop whose value is a function is registered through
`element.addEventListener` (the handler is wrapped by `BatchUpdate.wrap` in
the source; the wrapper is identity on the stored value here); everything
else is set as a string attribute. -/
def applyCreateProps (props : List (String × JVal)) :
    List (String × String) × List (String × JVal) :=
  props.foldl
    (fun acc p =>
      if p.1 = "className" then (setAttr acc.1 "class" (jvToString p.2), acc.2)
      else if p.1.startsWith "on" then
        match p.2 with
        | .fn r => (acc.1, acc.2 ++ [(evName p.1, .fn r)])
        | _ => acc
      else (setAttr acc.1 p.1 (jvToString p.2), acc.2))
    ([], [])

/-- Removal step of `updateProps`: an old prop name absent from the new props
is unregistered from the delegator when event-prefixed, else removed as an
attribute. -/
def removeOldProp (newProps : List (String × JVal)) (node : Nat)
    (acc : List (String × String) × RState) (p : String × JVal) :
    List (String × String) × RState :=
  if newProps.any (fun q => q.1 == p.1) then acc
  else if p.1.startsWith "on" then (acc.1, delegRemove acc.2 (evName p.1) node)
  else (removeAttr acc.1 p.1, acc.2)

/-- Set step of `updateProps`: a new prop whose value differs from the old one
(`oldProps[name] !== value`; an absent old value always differs) is registered
through the delegator when event-prefixed, else set as an attribute. -/
def setNewProp (oldProps : List (String × JVal)) (node : Nat)
    (acc : List (String × String) × RState) (q : String × JVal) :
    List (String × String) × RState :=
  if lookupProp oldProps q.1 = some q.2 then acc
  else if q.1.startsWith "on" then (acc.1, delegSet acc.2 (evName q.1) node q.2)
  else (setAttr acc.1 q.1 (jvToString q.2), acc.2)

/-- `Reconciler.updateProps`: remove old props missing from the new set, then
set changed or added props, on the live node with identity `node`. -/
def updateProps (node : Nat) (attrs : List (String × String))
    (oldProps newProps : List (String × JVal)) (st : RState) :
    List (String × String) × RState :=
  let r := oldProps.foldl (removeOldProp newProps node) (attrs, st)
  newProps.foldl (setNewProp oldProps node) r

/-- Insertion half of `insertBefore`: place `node` immediately before the
first child whose identity matches `ref`. -/
def insertBeforeGo (node ref : DNode) : List DNode → List DNode
  | [] => []
  | d :: ds =>
      if dnId d = dnId ref then node :: d :: ds
      else d :: insertBeforeGo node ref ds

/-- `parent.insertBefore(node, ref)` on an ordered child list: the node is
removed from its current position and re-inserted immediately before the
reference node (identified by id); inserting a node before itself is a no-op. -/
def listInsertBefore (l : List DNode) (node ref : DNode) : List DNode :=
  if dnId node = dnId ref then l
  else insertBeforeGo node ref (l.filter (fun d => dnId d ≠ dnId node))

/-- First pass of `updateChildren`: the key map over the keyed old children,
`key -> (old node, old index)`, later entries overwriting earlier ones as in
`Map.set`. -/
def buildKeyed (oldCh : List VN) : List (JVal × VN × Nat) :=
  (oldCh.enum.filter (fun p => vnodeKeyed p.2)).foldl
    (fun m p =>
      match vnKey p.2 with
      | some k =>
          if m.any (fun e => e.1 == k) then
            m.map (fun e => if e.1 == k then (k, p.2, p.1) else e)
          else m ++ [(k, p.2, p.1)]
      | none => m)
    []

mutual

/-- `Reconciler.createDOMElement` (fueled).  A string becomes a text node; a
function `type` goes through `createComponent`; an element `type` creates a
fresh display node, applies its props, and appends its materialised children.
Fuel exhaustion yields an error never reached at the inputs below. -/
def createDOMElement : Nat → VN → RState → Except String DNode × RState
  | 0, _, st => (.error "fuel", st)
  | Nat.succ f, v, st =>
    match v with
    | .text s => (.ok (.dtext st.ctr s), { st with ctr := st.ctr + 1 })
    | .elem ty props _ children =>
        let i := st.ctr
        let al := applyCreateProps props
        match materializeChildren f children { st with ctr := st.ctr + 1 } with
        | (.ok ds, st2) => (.ok (.delem i ty al.1 al.2 ds), st2)
        | (.error e, st2) => (.error e, st2)
    | .comp _ renderRes =>
        -- createComponent: instantiate, inherit the current boundary pointer as
        -- a back-reference (write-only in this path), render, recurse; a throw
        -- anywhere in the try block is routed to the catch below.
        (match renderRes with
         | .ok r =>
             match createDOMElement f r st with
             | (.ok d, st1) => (.ok d, st1)
             | (.error e, st1) => handleErrorInBoundary f e st1
         | .error e => handleErrorInBoundary f e st)
    | .boundary name fb child =>
        -- createComponent on an ErrorBoundary subclass: the fresh instance
        -- starts with { hasError: false }, becomes the current pointer, its
        -- render returns props.children, and after a successful subtree the
        -- pointer is set to null (the source resets, it does not restore).
        let inst : BInst := ⟨name, fb, false, none⟩
        match createDOMElement f child { st with ptr := some inst } with
        | (.ok d, st2) => (.ok d, { st2 with ptr := none })
        | (.error e, st2) => handleErrorInBoundary f e st2

/-- The `vnode.children.forEach` loop of `createDOMElement`: materialise each
child in order, appending it; a throw aborts the loop and propagates. -/
def materializeChildren : Nat → List VN → RState →
    Except String (List DNode) × RState
  | 0, _, st => (.error "fuel", st)
  | Nat.succ _, [], st => (.ok [], st)
  | Nat.succ f, v :: vs, st =>
      match createDOMElement f v st with
      | (.ok d, st1) =>
          match materializeChildren f vs st1 with
          | (.ok ds, st2) => (.ok (d :: ds), st2)
          | (.error e, st2) => (.error e, st2)
      | (.error e, st1) => (.error e, st1)

/-- `Reconciler.handleErrorInBoundary`: with a current boundary pointer set,
derive `{ hasError: true, error }` into the boundary state
(`getDerivedStateFromError` merged by `setState`; the scheduled re-render is a
no-op because the boundary instance was never mounted), render the boundary —
now the fallback applied to the error — and materialise that output.  With no
pointer the error is rethrown.  No call to `componentDidCatch` exists in the
source, so `didCatchLog` is untouched. -/
def handleErrorInBoundary : Nat → String → RState →
    Except String DNode × RState
  | 0, _, st => (.error "fuel", st)
  | Nat.succ f, e, st =>
    match st.ptr with
    | some inst =>
        let inst2 : BInst := { inst with hasError := true, errVal := some e }
        createDOMElement f (inst2.fallback e) { st with ptr := some inst2 }
    | none => (.error e, st)

/-- `Reconciler.updateDOMElement` (patch).  Different `type`: replace the live
node wholesale with a fresh materialisation.  Same `type`: diff props on the
node, then diff children.  A text live node has no attribute or child surface;
the source never reaches that case because the child diff only recurses when
both descriptions are non-text. -/
def updateDOMElement : Nat → DNode → VN → VN → RState →
    Except String DNode × RState
  | 0, _, _, _, st => (.error "fuel", st)
  | Nat.succ f, dom, o, n, st =>
    if vnType o ≠ vnType n then
      createDOMElement f n st
    else
      match dom with
      | .dtext _ _ => (.ok dom, st)
      | .delem i ty attrs lst chs =>
          let pr := updateProps i attrs (vnProps o) (vnProps n) st
          match updateChildren f chs (vnChildren o) (vnChildren n) pr.2 with
          | (.ok chs2, st2) => (.ok (.delem i ty pr.1 lst chs2), st2)
          | (.error e, st2) => (.error e, st2)

/-- `Reconciler.updateChildren`: build the keyed lookup over the old children,
run the single linear pass, then trim trailing live nodes beyond the new child
count (`while (dom.childNodes.length > resultChildren.length) removeChild`). -/
def updateChildren : Nat → List DNode → List VN → List VN → RState →
    Except String (List DNode) × RState
  | 0, _, _, _, st => (.error "fuel", st)
  | Nat.succ f, doms, oldCh, newCh, st =>
      match updateChildrenGo f doms oldCh (buildKeyed oldCh) newCh 0 0 st with
      | (.ok doms2, st2) => (.ok (doms2.take newCh.length), st2)
      | (.error e, st2) => (.error e, st2)

/-- The second pass of `updateChildren`, one step per new child at position
`newIndex` with the running high-water mark `lastIndex`: a keyed new child is
paired through the key map, an unkeyed one positionally
(`oldChildren[newIndex]`, subject to JS truthiness).  A found pairing whose
old index is below the mark moves `dom.childNodes[oldIndex]` before
`dom.childNodes[newIndex]` — both read from the current child list — else it
raises the mark; then, when both sides are non-text,
`dom.childNodes[newIndex]` is patched against the paired descriptions.  An
unpaired new child is materialised and inserted at the current position. -/
def updateChildrenGo : Nat → List DNode → List VN → List (JVal × VN × Nat) →
    List VN → Nat → Nat → RState → Except String (List DNode) × RState
  | _, doms, _, _, [], _, _, st => (.ok doms, st)
  | 0, _, _, _, _ :: _, _, _, st => (.error "fuel", st)
  | Nat.succ f, doms, oldCh, oldKeyed, nc :: rest, newIndex, lastIndex, st =>
      let pairing : Option (VN × Nat) :=
        if vnodeKeyed nc then
          match vnKey nc with
          | some k =>
              match oldKeyed.find? (fun e => e.1 == k) with
              | some e => some (e.2.1, e.2.2)
              | none => none
          | none => none
        else
          match oldCh.get? newIndex with
          | some oc => some (oc, newIndex)
          | none => none
      match pairing with
      | some (oc, oi) =>
          if vnTruthy oc then
            let doms1 :=
              if oi < lastIndex then
                match doms.get? oi, doms.get? newIndex with
                | some nd, some rf => listInsertBefore doms nd rf
                | _, _ => doms
              else doms
            let lastIndex2 := if oi < lastIndex then lastIndex else oi
            if vnIsObject oc && vnIsObject nc then
              match doms1.get? newIndex with
              | some target =>
                  match updateDOMElement f target oc nc st with
                  | (.ok d2, st1) =>
                      updateChildrenGo f (doms1.set newIndex d2) oldCh oldKeyed
                        rest (newIndex + 1) lastIndex2 st1
                  | (.error e, st1) => (.error e, st1)
              | none =>
                  updateChildrenGo f doms1 oldCh oldKeyed rest (newIndex + 1)
                    lastIndex2 st
            else
              updateChildrenGo f doms1 oldCh oldKeyed rest (newIndex + 1)
                lastIndex2 st
          else
            match createDOMElement f nc st with
            | (.ok d, st1) =>
                let doms1 :=
                  if newIndex < doms.length then
                    doms.take newIndex ++ d :: doms.drop newIndex
                  else doms ++ [d]
                updateChildrenGo f doms1 oldCh oldKeyed rest (newIndex + 1)
                  lastIndex st1
            | (.error e, st1) => (.error e, st1)
      | none =>
          match createDOMElement f nc st with
          | (.ok d, st1) =>
              let doms1 :=
                if newIndex < doms.length then
                  doms.take newIndex ++ d :: doms.drop newIndex
                else doms ++ [d]
              updateChildrenGo f doms1 oldCh oldKeyed rest (newIndex + 1)
                lastIndex st1
          | (.error e, st1) => (.error e, st1)

end

/-! ## The update scheduler (`src/speedJS/vdom/BatchUpdate.ts`)

Two embeddings of the `BatchUpdate` singleton.

`BState` carries callbacks as opaque identity tokens (a JS `Set` keyed by
function identity, kept in insertion order) together with the execution log;
it backs the `wrap` bracket claim.

`C1World` specialises the callback payloads to the closures created by
`Component.setState`: each call allocates a syntactically fresh closure (a new
identity token) capturing the previous state, so the pending set never merges
two of them. -/

/-- Scheduler state with opaque callbacks: the pending set in insertion
order, the batching flag, and the ordered execution log (`runImmediate`
catches and logs a callback error without propagating; an identity token
cannot throw, so execution is plain log append). -/
structure BState where
  pending : List Nat
  isBatchingUpdates : Bool
  log : List Nat
deriving DecidableEq, Repr

/-- `runImmediate`: execute one callback. -/
def runImmediate (c : Nat) (s : BState) : BState :=
  { s with log := s.log ++ [c] }

/-- `scheduleUpdate`: while batching, add to the pending set (identity
dedup); otherwise run immediately. -/
def scheduleUpdate (c : Nat) (s : BState) : BState :=
  if s.isBatchingUpdates then
    if c ∈ s.pending then s else { s with pending := s.pending ++ [c] }
  else runImmediate c s

/-- `batchStart`. -/
def batchStart (s : BState) : BState :=
  { s with isBatchingUpdates := true }

/-- `flush`: snapshot the pending set, clear it, run each callback in
insertion order. -/
def flush (s : BState) : BState :=
  if s.pending.isEmpty then s
  else s.pending.foldl (fun acc c => runImmediate c acc) { s with pending := [] }

/-- `batchEnd`: clear the batching flag, then flush. -/
def batchEnd (s : BState) : BState :=
  flush { s with isBatchingUpdates := false }

/-- `BatchUpdate.wrap`: run the wrapped function between `batchStart` and
`batchEnd`; the `try/finally` applies `batchEnd` on both the normal and the
throwing exit, and rethrows the exception. -/
def wrapRun {α : Type} (fn : BState → Except String α × BState) (s : BState) :
    Except String α × BState :=
  let s1 := batchStart s
  match fn s1 with
  | (.ok a, s2) => (.ok a, batchEnd s2)
  | (.error e, s2) => (.error e, batchEnd s2)

/-- World for the `setState` batching claim: one mounted class component
(its shallow-merged state record, `isMounted`, the live `domElement` and
`prevVNode` references reduced to presence flags, and a counter of completed
render+diff+patch cycles) plus the scheduler singleton whose pending set
holds the closures scheduled by `setState`, each a fresh identity paired with
its captured previous state. -/
structure C1World where
  compState : List (String × Int)
  isMounted : Bool
  hasDom : Bool
  hasPrev : Bool
  renderCount : Nat
  pending : List (Nat × List (String × Int))
  isBatchingUpdates : Bool
  nextClosureId : Nat
deriving DecidableEq, Repr

/-- `{ ...this.state, ...newState }`: keys of the old record in place with
overridden values, then the new keys appended. -/
def mergeState (s upd : List (String × Int)) : List (String × Int) :=
  s.map (fun p =>
      match upd.find? (fun q => q.1 == p.1) with
      | some q => (p.1, q.2)
      | none => p)
    ++ upd.filter (fun q => ¬ s.any (fun p => p.1 == q.1))

/-- The body of the closure scheduled by `setState`: the default
`shouldComponentUpdate` returns `true`, so `updateComponent` runs; it
performs one render + diff + patch cycle when the component has a live node,
a previous tree and is mounted (the captured previous state and the optional
callback do not affect the cycle count). -/
def execClosure (_cl : Nat × List (String × Int)) (w : C1World) : C1World :=
  if w.hasDom && w.hasPrev && w.isMounted then
    { w with renderCount := w.renderCount + 1 }
  else w

/-- `scheduleUpdate` specialised to `setState` closures: while batching, the
closure joins the pending set unless an identical closure object is already
there; otherwise it runs immediately. -/
def scheduleUpdateC1 (cl : Nat × List (String × Int)) (w : C1World) : C1World :=
  if w.isBatchingUpdates then
    if w.pending.any (fun p => p.1 == cl.1) then w
    else { w with pending := w.pending ++ [cl] }
  else execClosure cl w

/-- `Component.setState`: capture the previous state, shallow-merge the
update into the state immediately, then schedule a freshly allocated closure
through the scheduler. -/
def setStateC1 (upd : List (String × Int)) (w : C1World) : C1World :=
  let prev := w.compState
  let w1 := { w with compState := mergeState w.compState upd }
  scheduleUpdateC1 (w1.nextClosureId, prev)
    { w1 with nextClosureId := w1.nextClosureId + 1 }

/-- `batchStart` on the `setState` world. -/
def batchStartC1 (w : C1World) : C1World :=
  { w with isBatchingUpdates := true }

/-- `flush` on the `setState` world: snapshot, clear, run each closure in
insertion order. -/
def flushC1 (w : C1World) : C1World :=
  if w.pending.isEmpty then w
  else w.pending.foldl (fun acc cl => execClosure cl acc) { w with pending := [] }

/-- `batchEnd` on the `setState` world. -/
def batchEndC1 (w : C1World) : C1World :=
  flushC1 { w with isBatchingUpdates := false }

/-! ## The hooks runtime (`src/speedJS/vdom/hooks.ts`) -/

/-- The argument of a `useState` setter: a direct next value or a producer
function applied to the current value (`typeof newValue === 'function'`). -/
inductive SetterArg (α : Type) where
  | value (a : α)
  | producer (f : α → α)

/-- `typeof newValue === 'function' ? newValue(hook.value) : newValue`. -/
def resolveNext {α : Type} : SetterArg α → α → α
  | .value a, _ => a
  | .producer f, cur => f cur

/-- World for one `StateSlot`: the module-level `currentComponent` cursor
(`setCurrentComponent(null)` runs as soon as the render function returns, so
outside a render pass it is `none`), the identity of the instance owning the
slot, the stored slot value, and the components on which `forceUpdate` has
been invoked (in invocation order). -/
structure HookWorld (α : Type) where
  cursor : Option Nat
  owner : Nat
  slotValue : α
  scheduled : List Nat

/-- The `useState` setter: resolve the next value against the captured slot,
overwrite the slot only when it differs by strict inequality, and when it
differs call `currentComponent?.forceUpdate()` — optional chaining on the
module-level cursor variable as read at call time, not on the owning
instance. -/
def setStateHook {α : Type} [DecidableEq α] (arg : SetterArg α)
    (w : HookWorld α) : HookWorld α :=
  let nextValue := resolveNext arg w.slotValue
  if nextValue ≠ w.slotValue then
    let w1 := { w with slotValue := nextValue }
    match w1.cursor with
    | some c => { w1 with scheduled := w1.scheduled ++ [c] }
    | none => w1
  else w

/-- An `EffectSlot`: the stored dependency list (`undefined` when the
previous call supplied none) and the stored cleanup (a function value carried
as an identity token, `undefined` when absent). -/
structure EffSlot (α : Type) where
  deps : Option (List α)
  cleanup : Option Nat

/-- Observable events of one `useEffect` call, in execution order. -/
inductive EffEvent where
  | cleanupRun (c : Nat)
  | effectRun
deriving DecidableEq, Repr

/-- The dependency comparison of `useEffect` exactly as coded:
`hasNoDeps = !deps` and
`hasChangedDeps = deps ? !hook.deps || deps.length !== hook.deps.length ||
deps.some((dep, i) => dep !== hook.deps[i]) : true`; the effect body runs
when either holds. -/
def effectRunsB {α : Type} [DecidableEq α] (deps stored : Option (List α)) :
    Bool :=
  let hasNoDeps := deps.isNone
  let hasChangedDeps :=
    match deps with
    | some ds =>
        match stored with
        | none => true
        | some old =>
            decide (ds.length ≠ old.length)
              || (ds.zip old).any (fun p => decide (p.1 ≠ p.2))
    | none => true
  hasNoDeps || hasChangedDeps

/-- One `useEffect` call on an already seeded slot: when the comparison fires,
the stored cleanup (if any) runs first, the effect body runs, its return value
becomes the new cleanup and the new dependency list is stored; otherwise
nothing happens.  `effectRet` is what the effect body returns. -/
def useEffectStep {α : Type} [DecidableEq α] (effectRet : Option Nat)
    (deps : Option (List α)) (slot : EffSlot α) : EffSlot α × List EffEvent :=
  if effectRunsB deps slot.deps then
    (⟨deps, effectRet⟩,
     (match slot.cleanup with
      | some c => [EffEvent.cleanupRun c]
      | none => []) ++ [EffEvent.effectRun])
  else (slot, [])

/-- The claim-side re-run condition, phrased after the specification text:
the effect re-runs iff no dependency list was supplied, or the new list
differs from the stored one element-wise — different length, or some element
unequal by reference/value (a supplied list always differs from an absent
stored one). -/
def specEffectShouldRun {α : Type} (deps stored : Option (List α)) : Prop :=
  deps = none ∨
    match deps, stored with
    | some ds, some old =>
        ds.length ≠ old.length ∨
          ∃ i, ∃ h1 : i < ds.length, ∃ h2 : i < old.length,
            ds.get ⟨i, h1⟩ ≠ old.get ⟨i, h2⟩
    | some _, none => True
    | none, _ => False

/-! ## The context channel (`src/speedJS/vdom/Context.ts`) -/

/-- A context channel: the current value and the subscriber set (component
identities, in insertion order as iterated by `Set.forEach`). -/
structure CtxState (α : Type) where
  currentValue : α
  subscribers : List Nat

/-- `Context.setValue`: replace the value wholesale and notify — invoke
`forceUpdate` on every subscriber synchronously, returned here as the ordered
list of components on which it was invoked. -/
def ctxSetValue {α : Type} (v : α) (c : CtxState α) : CtxState α × List Nat :=
  ({ c with currentValue := v }, c.subscribers)

/-- `ContextProvider.updateContextValue`: write through `setValue` only when
the supplied `props.value` differs from the channel value by strict
inequality. -/
def updateContextValue {α : Type} [DecidableEq α] (v : α) (c : CtxState α) :
    CtxState α × List Nat :=
  if c.currentValue ≠ v then ctxSetValue v c else (c, [])

/-- `ContextProvider.componentDidMount` calls `updateContextValue`. -/
def providerDidMount {α : Type} [DecidableEq α] (v : α) (c : CtxState α) :
    CtxState α × List Nat :=
  updateContextValue v c

/-- `ContextProvider.componentDidUpdate` calls `updateContextValue`. -/
def providerDidUpdate {α : Type} [DecidableEq α] (v : α) (c : CtxState α) :
    CtxState α × List Nat :=
  updateContextValue v c

/-! ## Concrete fixtures used by the closed theorems below -/

/-- A keyed `li` child with one text child. -/
def mkLi (k txt : String) : VN :=
  VN.elem "li" [] (some (JVal.str k)) [VN.text txt]

/-- Old children `[A, B, C]` with keys `a`, `b`, `c`. -/
def ulOld : VN :=
  VN.elem "ul" [] none [mkLi "a" "a", mkLi "b" "b", mkLi "c" "c"]

/-- New children `[C, A, B]`: the same keyed descriptions, reordered. -/
def ulNew : VN :=
  VN.elem "ul" [] none [mkLi "c" "c", mkLi "a" "a", mkLi "b" "b"]

/-- Fresh reconciler state. -/
def stInit : RState := ⟨none, [], [], 0⟩

/-- The live tree materialised from `ulOld` out of `stInit`: the `ul` is node
0, the `li` nodes are 1, 3, 5 holding texts 2 `a`, 4 `b`, 6 `c`. -/
def ulDom : DNode :=
  DNode.delem 0 "ul" [] []
    [DNode.delem 1 "li" [] [] [DNode.dtext 2 "a"],
     DNode.delem 3 "li" [] [] [DNode.dtext 4 "b"],
     DNode.delem 5 "li" [] [] [DNode.dtext 6 "c"]]

/-- Reconciler state after materialising `ulOld`: seven nodes created. -/
def stMat : RState := ⟨none, [], [], 7⟩

/-- The fallback renderer of the scenario boundary. -/
def fbB : String → VN := fun _ => VN.text "Something went wrong."

/-- The error-boundary scenario: a boundary whose child component throws
`boom` during render. -/
def scen : VN := VN.boundary "B" fbB (VN.comp "child" (.error "boom"))

/-- Fallback renderer of an outer boundary. -/
def fbO : String → VN := fun _ => VN.text "outer fallback"

/-- Fallback renderer of an inner boundary. -/
def fbI : String → VN := fun _ => VN.text "inner fallback"

/-- Reconciler state as seen while materialising the subtree of an outer
boundary: the current pointer holds the outer boundary instance. -/
def stOuter : RState := ⟨some ⟨"outer", fbO, false, none⟩, [], [], 0⟩

/-- A mounted component with state `{ x: 0 }`, an idle scheduler, and no
render cycles recorded yet. -/
def c1w0 : C1World := ⟨[("x", 0)], true, true, true, 0, [], false, 0⟩

/-- A `StateSlot` world immediately after the owning render pass finished:
the module-level cursor is back to `null`, the slot (owned by component 7)
holds `0`, and nothing is scheduled. -/
def hw0 : HookWorld Nat := ⟨none, 7, 0, []⟩

/-- A wrapped function that schedules callback `5` and then throws. -/
def wfn0 : BState → Except String Unit × BState :=
  fun s => (.error "boom", scheduleUpdate 5 s)

/-- An idle scheduler. -/
def ws0 : BState := ⟨[], false, []⟩

/-- Fallback renderer for the boundary of the pointer-clearing witness. -/
def fbW : String → VN := fun _ => VN.text "w"

/-! ## Helper lemmas -/

/-- A fold whose step preserves the id counter preserves the id counter. -/
theorem foldl_ctr_preserved {β : Type}
    (step : (List (String × String) × RState) → β →
      (List (String × String) × RState))
    (hstep : ∀ acc b, ((step acc b).2).ctr = (acc.2).ctr) :
    ∀ (l : List β) acc, ((l.foldl step acc).2).ctr = (acc.2).ctr := by
  intro l
  induction l with
  | nil => intro acc; rfl
  | cons b bt ih => intro acc; rw [List.foldl_cons, ih, hstep]

/-- The removal step of `updateProps` never creates display nodes. -/
theorem removeOldProp_ctr (newP : List (String × JVal)) (node : Nat) :
    ∀ acc p, ((removeOldProp newP node acc p).2).ctr = (acc.2).ctr := by
  intro acc p
  unfold removeOldProp delegRemove
  split <;> [rfl; split <;> rfl]

/-- The set step of `updateProps` never creates display nodes. -/
theorem setNewProp_ctr (oldP : List (String × JVal)) (node : Nat) :
    ∀ acc q, ((setNewProp oldP node acc q).2).ctr = (acc.2).ctr := by
  intro acc q
  unfold setNewProp delegSet
  split
  · rfl
  · split
    · split <;> rfl
    · rfl

/-- `updateProps` never creates display nodes: the fresh-id counter is
untouched by the attribute diff. -/
theorem updateProps_ctr (node : Nat) (attrs : List (String × String))
    (oldP newP : List (String × JVal)) (st : RState) :
    ((updateProps node attrs oldP newP st).2).ctr = st.ctr := by
  unfold updateProps
  rw [foldl_ctr_preserved _ (setNewProp_ctr oldP node),
    foldl_ctr_preserved _ (removeOldProp_ctr newP node)]

/-- Running a list of callbacks appends to the log: a callback in the list,
or already in the log, is in the resulting log. -/
theorem foldl_runImmediate_log (p : List Nat) :
    ∀ (s : BState) (c : Nat), (c ∈ p ∨ c ∈ s.log) →
      c ∈ (p.foldl (fun acc x => runImmediate x acc) s).log := by
  induction p with
  | nil =>
      intro s c h
      rcases h with h | h
      · cases h
      · exact h
  | cons x xt ih =>
      intro s c h
      rcases h with h | h
      · rcases List.mem_cons.mp h with h1 | h1
        · exact ih _ c (Or.inr (by simp [runImmediate, h1]))
        · exact ih _ c (Or.inl h1)
      · exact ih _ c (Or.inr (by simp [runImmediate, h]))

/-- Running callbacks does not touch the batching flag. -/
theorem foldl_runImmediate_flag (p : List Nat) :
    ∀ s : BState,
      (p.foldl (fun acc x => runImmediate x acc) s).isBatchingUpdates
        = s.isBatchingUpdates := by
  induction p with
  | nil => intro s; rfl
  | cons x xt ih => intro s; rw [List.foldl_cons, ih]; rfl

/-- After `batchEnd` the batching flag is down. -/
theorem batchEnd_flag (s : BState) : (batchEnd s).isBatchingUpdates = false := by
  unfold batchEnd flush
  split
  · rfl
  · rw [foldl_runImmediate_flag]

/-- Every callback pending at `batchEnd` is executed by its flush. -/
theorem batchEnd_mem (s : BState) (c : Nat) (h : c ∈ s.pending) :
    c ∈ (batchEnd s).log := by
  unfold batchEnd flush
  split
  · next hE =>
      rw [show ({ s with isBatchingUpdates := false } : BState).pending
          = s.pending from rfl, List.isEmpty_iff] at hE
      rw [hE] at h
      cases h
  · exact foldl_runImmediate_log _ _ c (Or.inl h)

/-- The element-wise `deps.some((dep, i) => dep !== hook.deps[i])` test over
the zipped lists holds exactly when some shared index carries unequal
elements. -/
theorem zip_any_ne_iff {α : Type} [DecidableEq α] (ds old : List α) :
    ((ds.zip old).any (fun p => decide (p.1 ≠ p.2)) = true) ↔
      ∃ i, ∃ h1 : i < ds.length, ∃ h2 : i < old.length,
        ds.get ⟨i, h1⟩ ≠ old.get ⟨i, h2⟩ := by
  induction ds generalizing old with
  | nil => cases old <;> simp
  | cons d dsT ih =>
      cases old with
      | nil => simp
      | cons o oldT =>
          simp only [List.zip_cons_cons, List.any_cons, Bool.or_eq_true,
            decide_eq_true_eq, ih]
          constructor
          · rintro (h | ⟨i, h1, h2, hne⟩)
            · exact ⟨0, Nat.succ_pos _, Nat.succ_pos _, h⟩
            · exact ⟨i + 1, Nat.succ_lt_succ h1, Nat.succ_lt_succ h2, hne⟩
          · rintro ⟨i, h1, h2, hne⟩
            cases i with
            | zero => exact Or.inl hne
            | succ j =>
                exact Or.inr ⟨j, Nat.lt_of_succ_lt_succ h1,
                  Nat.lt_of_succ_lt_succ h2, hne⟩

/-- The coded dependency comparison agrees with the specification text. -/
theorem effectRunsB_iff_spec {α : Type} [DecidableEq α]
    (deps stored : Option (List α)) :
    effectRunsB deps stored = true ↔ specEffectShouldRun deps stored := by
  cases deps with
  | none => simp [effectRunsB, specEffectShouldRun]
  | some ds =>
      cases stored with
      | none => simp [effectRunsB, specEffectShouldRun]
      | some old =>
          show (decide (ds.length ≠ old.length)
              || (ds.zip old).any fun p => decide (p.1 ≠ p.2)) = true ↔ _
          rw [Bool.or_eq_true, decide_eq_true_eq, zip_any_ne_iff]
          unfold specEffectShouldRun
          exact ⟨fun h => Or.inr h,
            fun h => h.resolve_left (Option.some_ne_none ds)⟩

/-! ## Claim theorems -/

/-- Claim C2 (status: code_bug, evaluation at the failing input).  Patching a
component whose keyed children go from `[A, B, C]` (keys `a`, `b`, `c`) to
`[C, A, B]` leaves the live tree *completely unchanged*: the result of the
patch is the very materialisation of the old tree — same node identities 1,
3, 5 still in their original order, still holding texts `a`, `b`, `c` — and
the id counter still reads 7, so no node was re-materialised.  The claim is
right that the three live instances are reused and nothing is recreated, but
the required reorder to `[C, A, B]` never happens: the move branch passes
`dom.childNodes[oldIndex]` and `dom.childNodes[newIndex]` read at their
current positions, making every `insertBefore` a no-op here, and position `i`
is patched against the key-matched old description, which is identical to the
new one. -/
theorem keyed_reorder_patch_is_noop :
    updateDOMElement 50 ulDom ulOld ulNew stMat = (.ok ulDom, stMat) ∧
    dnChildIds ulDom = [1, 3, 5] := ⟨rfl, rfl⟩

/-- Claim C3 (status: code_bug, evaluation at the failing input).  Calling a
`useState` setter with a different value (`1` against a stored `0`) after the
owning render pass has finished does overwrite the slot, but schedules no
re-render at all: the setter closed over the module-level `currentComponent`
variable, which `setCurrentComponent(null)` reset when the render returned,
so `currentComponent?.forceUpdate()` is a no-op — in particular the owning
instance (component 7) is not scheduled. -/
theorem useState_setter_outside_render_schedules_nothing :
    setStateHook (SetterArg.value 1) hw0 = { hw0 with slotValue := 1 } ∧
    (setStateHook (SetterArg.value 1) hw0).scheduled = [] ∧
    ¬ (setStateHook (SetterArg.value 1) hw0).scheduled = [hw0.owner] :=
  ⟨rfl, rfl, by decide⟩

/-- Claim C5, counterexample.  Materialising an *inner* error boundary while
an outer boundary is the current pointer ends with the pointer equal to
`null`, not restored to the outer boundary it held before entering: the
source resets the pointer to `null` after the subtree instead of restoring
the saved value. -/
theorem boundary_pointer_not_restored :
    (stOuter.ptr).isSome = true ∧
    (((createDOMElement 5 (VN.boundary "inner" fbI (VN.text "x"))
        stOuter).2).ptr).isSome = false := ⟨rfl, rfl⟩

/-- Claim C5 as amended (status: corrected).  When a materialised component
is an error boundary, its fresh instance becomes the current error-boundary
pointer for its own subtree; after the subtree materialises without throwing,
the pointer is *cleared to null* — which coincides with the prior value only
when no boundary was current before entry. -/
theorem boundary_pointer_cleared_after_subtree
    (f : Nat) (name : String) (fb : String → VN) (child : VN) (st : RState)
    (d : DNode) (st2 : RState)
    (h : createDOMElement f child { st with ptr := some ⟨name, fb, false, none⟩ }
      = (.ok d, st2)) :
    createDOMElement (f + 1) (VN.boundary name fb child) st
      = (.ok d, { st2 with ptr := none }) := by
  simp [createDOMElement, h]

/-- Witness for the amended claim C5 at a concrete boundary with a text
subtree. -/
theorem boundary_pointer_cleared_after_subtree_witness :
    createDOMElement 2 (VN.boundary "w" fbW (VN.text "x")) ⟨none, [], [], 0⟩
      = (.ok (DNode.dtext 0 "x"), ⟨none, [], [], 1⟩) :=
  boundary_pointer_cleared_after_subtree 1 "w" fbW (VN.text "x")
    ⟨none, [], [], 0⟩ (DNode.dtext 0 "x")
    ⟨some ⟨"w", fbW, false, none⟩, [], [], 1⟩ rfl

/-- Claim C6 (status: code_bug, evaluation at the failing input).  When a
child component throws `boom` during render beneath a boundary whose fallback
renders the literal text `Something went wrong.`, the materialised output is
indeed that fallback text — but the did-catch hook runs zero times, not once:
`componentDidCatch` is declared in `ErrorBoundary` and documented as the
lifecycle method that catches child errors, yet no call site for it exists
anywhere in the source. -/
theorem error_boundary_fallback_no_didcatch :
    (createDOMElement 10 scen stInit).1
        = .ok (DNode.dtext 0 "Something went wrong.") ∧
    ((createDOMElement 10 scen stInit).2).didCatchLog.length = 0 := ⟨rfl, rfl⟩

/-- Claim C10 (status: confirmed).  A node built through `createElement` whose
props carry a key equal to `0` or to the empty string has `key: undefined`
(the falsy key is discarded by `key || undefined`), and therefore fails the
`typeof child !== 'string' && child.key != null` guard that `updateChildren`
uses, so a subsequent diff matches it positionally rather than by key. -/
theorem falsy_key_dropped_unkeyed (ty : String)
    (props : List (String × JVal)) (children : List CEChild)
    (h : lookupProp props "key" = some (JVal.num 0) ∨
      lookupProp props "key" = some (JVal.str "")) :
    vnKey (createElement ty (some props) children) = none ∧
    vnodeKeyed (createElement ty (some props) children) = false := by
  unfold createElement
  rcases h with h | h <;>
    simp [h, vnKey, vnodeKeyed, jvTruthy]

/-- Witness for claim C10 at a concrete prop record carrying `key: 0`. -/
theorem falsy_key_dropped_unkeyed_witness :
    vnKey (createElement "div"
        (some [("key", JVal.num 0), ("id", JVal.str "z")]) []) = none ∧
    vnodeKeyed (createElement "div"
        (some [("key", JVal.num 0), ("id", JVal.str "z")]) []) = false :=
  falsy_key_dropped_unkeyed "div" [("key", JVal.num 0), ("id", JVal.str "z")]
    [] (Or.inl rfl)

/-- Claim C7 (status: confirmed).  The Provider behaviour runs at mount
(`componentDidMount`) and at every update (`componentDidUpdate`), and in both
cases: when the supplied value differs from the channel value by strict
inequality, the channel value is replaced with it and `forceUpdate` is
invoked synchronously on every subscribed component, in subscription order;
when it is equal, nothing is written and nobody is notified. -/
theorem provider_writes_and_notifies_iff_changed {α : Type} [DecidableEq α]
    (v : α) (c : CtxState α) :
    (v ≠ c.currentValue →
      providerDidMount v c = ({ c with currentValue := v }, c.subscribers) ∧
      providerDidUpdate v c = ({ c with currentValue := v }, c.subscribers)) ∧
    (v = c.currentValue →
      providerDidMount v c = (c, []) ∧ providerDidUpdate v c = (c, [])) := by
  constructor
  · intro h
    constructor <;>
      simp [providerDidMount, providerDidUpdate, updateContextValue,
        ctxSetValue, Ne.symm h]
  · intro h
    constructor <;>
      simp [providerDidMount, providerDidUpdate, updateContextValue, h]

/-- Witness for claim C7: a channel holding `0` with subscribers `[1, 2]`
receives `5`. -/
theorem provider_writes_and_notifies_iff_changed_witness :
    providerDidMount 5 (⟨0, [1, 2]⟩ : CtxState Nat) = (⟨5, [1, 2]⟩, [1, 2]) ∧
    providerDidUpdate 5 (⟨0, [1, 2]⟩ : CtxState Nat) = (⟨5, [1, 2]⟩, [1, 2]) :=
  (provider_writes_and_notifies_iff_changed 5 ⟨0, [1, 2]⟩).1 (by decide)

/-- Claim C9 (status: confirmed).  `BatchUpdate.wrap` executes the wrapped
function between `batchStart` and `batchEnd`: the function runs on the
post-`batchStart` state, and even when it throws, the `finally` applies
`batchEnd` to the state the function left behind and rethrows — so the
batching flag is down afterwards and every callback the function scheduled
into the pending set has been flushed into the execution log. -/
theorem wrap_runs_batchend_on_throw {α : Type}
    (fn : BState → Except String α × BState) (s : BState) (e : String)
    (s2 : BState) (h : fn (batchStart s) = (.error e, s2)) :
    wrapRun fn s = (.error e, batchEnd s2) ∧
    (wrapRun fn s).2.isBatchingUpdates = false ∧
    ∀ c ∈ s2.pending, c ∈ (wrapRun fn s).2.log := by
  have h1 : wrapRun fn s = (.error e, batchEnd s2) := by
    simp [wrapRun, h]
  refine ⟨h1, ?_, ?_⟩
  · rw [h1]
    exact batchEnd_flag s2
  · intro c hc
    rw [h1]
    exact batchEnd_mem s2 c hc

/-- Witness for claim C9: a wrapped function that schedules callback `5` and
throws; the callback is nevertheless executed and the flag is down. -/
theorem wrap_runs_batchend_on_throw_witness :
    5 ∈ (wrapRun wfn0 ws0).2.log ∧
    (wrapRun wfn0 ws0).2.isBatchingUpdates = false := by
  have h := wrap_runs_batchend_on_throw wfn0 ws0 "boom" ⟨[5], true, []⟩ rfl
  exact ⟨h.2.2 5 (by decide), h.2.1⟩

/-- Claim C4 (status: confirmed).  On an already seeded `EffectSlot`, the
effect body runs iff no dependency list was supplied or the new list differs
from the stored one element-wise (different length, or some shared position
holding unequal values; a supplied list always differs from an absent stored
one) — and when it runs, the stored cleanup (if any) runs first, the new
dependency list is stored and the value returned by the effect becomes the
new cleanup. -/
theorem useEffect_rerun_iff {α : Type} [DecidableEq α] (ret : Option Nat)
    (deps : Option (List α)) (slot : EffSlot α) :
    (EffEvent.effectRun ∈ (useEffectStep ret deps slot).2 ↔
      specEffectShouldRun deps slot.deps) ∧
    (specEffectShouldRun deps slot.deps →
      (useEffectStep ret deps slot).1 = ⟨deps, ret⟩ ∧
      (useEffectStep ret deps slot).2 =
        (match slot.cleanup with
         | some c => [EffEvent.cleanupRun c]
         | none => []) ++ [EffEvent.effectRun]) := by
  by_cases hb : effectRunsB deps slot.deps = true
  · have hs := (effectRunsB_iff_spec deps slot.deps).mp hb
    unfold useEffectStep
    rw [if_pos hb]
    refine ⟨⟨fun _ => hs, fun _ => ?_⟩, fun _ => ⟨rfl, rfl⟩⟩
    simp
  · have hs : ¬ specEffectShouldRun deps slot.deps :=
      fun h => hb ((effectRunsB_iff_spec deps slot.deps).mpr h)
    unfold useEffectStep
    rw [if_neg hb]
    exact ⟨⟨fun h => absurd h (by simp), fun h => absurd h hs⟩,
      fun h => absurd h hs⟩

/-- Witness for claim C4: stored deps `[1, 2]`, new deps `[1, 3]` (same
length, second element differs), stored cleanup `9`, effect returning
cleanup `4`: the effect re-runs, the old cleanup runs first, and the slot now
stores the new deps and cleanup. -/
theorem useEffect_rerun_iff_witness :
    EffEvent.effectRun ∈
      (useEffectStep (some 4) (some [1, 3])
        (⟨some [1, 2], some 9⟩ : EffSlot Nat)).2 ∧
    (useEffectStep (some 4) (some [1, 3])
        (⟨some [1, 2], some 9⟩ : EffSlot Nat)).1 = ⟨some [1, 3], some 4⟩ ∧
    (useEffectStep (some 4) (some [1, 3])
        (⟨some [1, 2], some 9⟩ : EffSlot Nat)).2 =
      [EffEvent.cleanupRun 9, EffEvent.effectRun] := by
  have h := useEffect_rerun_iff (α := Nat) (some 4) (some [1, 3])
    ⟨some [1, 2], some 9⟩
  have hs : specEffectShouldRun (some [1, 3])
      (some [1, 2] : Option (List Nat)) :=
    Or.inr (Or.inr ⟨1, by decide, by decide, by decide⟩)
  exact ⟨h.1.mpr hs, (h.2 hs).1, (h.2 hs).2⟩

/-- The linear pass of the child diff on an empty new-children list returns
the live children untouched. -/
theorem updateChildrenGo_nil (f : Nat) (doms : List DNode) (oldCh : List VN)
    (oldKeyed : List (JVal × VN × Nat)) (ni li : Nat) (st : RState) :
    updateChildrenGo f doms oldCh oldKeyed [] ni li st = (.ok doms, st) := by
  cases f <;> rfl

/-- The child diff between two empty child lists on a childless live element
is the identity. -/
theorem updateChildren_nil (f : Nat) (st : RState) :
    updateChildren (f + 1) [] [] [] st = (.ok [], st) := by
  simp [updateChildren, updateChildrenGo_nil, buildKeyed]

/-- Claim C8 (status: confirmed).  Patching a live element against two node
descriptions with the same `kind` and both with zero children never replaces
the live node: the result is the same node instance (same identity `i`, same
tag, same creation-time listeners, still childless) with only the attribute
diff applied to it, and the fresh-id counter is untouched — no wholesale
materialisation happened. -/
theorem patch_same_type_no_children_keeps_node (f i : Nat) (ty : String)
    (attrs : List (String × String)) (lst : List (String × JVal))
    (oldP newP : List (String × JVal)) (k1 k2 : Option JVal) (st : RState) :
    ∃ attrs2 st2,
      updateDOMElement (f + 2) (DNode.delem i ty attrs lst [])
          (VN.elem ty oldP k1 []) (VN.elem ty newP k2 []) st
        = (.ok (DNode.delem i ty attrs2 lst []), st2) ∧
      st2.ctr = st.ctr := by
  refine ⟨(updateProps i attrs oldP newP st).1,
    (updateProps i attrs oldP newP st).2, ?_,
    updateProps_ctr i attrs oldP newP st⟩
  rw [updateDOMElement, if_neg (by simp [vnType])]
  simp [vnProps, vnChildren, updateChildren_nil]

/-- Claim C1, counterexample.  On a mounted component with state `{ x: 0 }`,
two `setState` calls issued synchronously inside one batching window do not
produce one render+diff+patch cycle at the flush: each call schedules a
syntactically fresh closure, the pending set dedupes by callback identity
only, and the flush runs both — the cycle count is not 1. -/
theorem two_setstate_single_render_refuted :
    ¬ ((batchEndC1 (setStateC1 [("x", 2)]
        (setStateC1 [("x", 1)] (batchStartC1 c1w0)))).renderCount = 1) := by
  decide

/-- Claim C1 as amended (status: corrected).  For every mounted component
(live node and previous tree present) with an empty pending set, two
`setState` calls issued synchronously while one batching window is open
result in exactly *two* render+diff+patch cycles when the batch is flushed —
one per call: the two scheduled closures are distinct objects, so the
identity-keyed pending set keeps both. -/
theorem batched_two_setstate_two_renders (w : C1World)
    (a b : List (String × Int)) (hm : w.isMounted = true)
    (hd : w.hasDom = true) (hp : w.hasPrev = true) (hpend : w.pending = []) :
    (batchEndC1 (setStateC1 b (setStateC1 a (batchStartC1 w)))).renderCount
      = w.renderCount + 2 := by
  have hne : ¬ (w.nextClosureId == w.nextClosureId + 1) = true := by
    simp
  simp [batchStartC1, setStateC1, scheduleUpdateC1, hpend, hne, batchEndC1,
    flushC1, execClosure, hm, hd, hp]

/-- Witness for the amended claim C1 at the concrete mounted world `c1w0`. -/
theorem batched_two_setstate_two_renders_witness :
    (batchEndC1 (setStateC1 [("y", 5)]
        (setStateC1 [("x", 1)] (batchStartC1 c1w0)))).renderCount
      = c1w0.renderCount + 2 :=
  batched_two_setstate_two_renders c1w0 [("x", 1)] [("y", 5)] rfl rfl rfl rfl
